import Mathlib

/-!
Verification of the SimCSE-Pytorch training script (`SimCSE/train.py`).

The script is a single linear pipeline: parse CLI arguments, load STS data,
build a dataloader, assert the pooling flag, build the model and optimizer,
then run a training loop that reshapes each batch, computes the contrastive
loss, steps the optimizer, and evaluates Spearman correlation after every
batch, tracking the best correlation seen.

We shallowly embed the script's data flow: tensors are nested lists, the
framework primitives (encoder forward pass, cosine similarity, Spearman
correlation) are parameters of the functions that call them, and fallible
Python operations return `Except`.
-/

namespace SimCSE

/-- Token-id tensors of shape described by nesting depth. -/
abbrev Tensor2 := List (List Int)

/-- Tensors of shape described by nesting depth, three dimensions. -/
abbrev Tensor3 := List (List (List Int))

/-! ### Best-correlation tracking (`train`, lines 21 and 44-45) -/

/-- Update of `best` after one evaluation: `if best < corrcoef: best = corrcoef`
(train.py lines 44-45). -/
def bestUpdate (best corrcoef : ℚ) : ℚ :=
  if best < corrcoef then corrcoef else best

/-- Value of the `best` variable after the training loop has observed the given
sequence of correlation coefficients, starting from `best = 0` (train.py line 21). -/
def trainBest (corrcoefs : List ℚ) : ℚ :=
  corrcoefs.foldl bestUpdate 0

/-! ### Pooling-flag assertion (`main`, line 102) -/

/-- Enumerated set of pooling strategies accepted by the assertion in `main`
(train.py line 102). -/
def poolerChoices : List String :=
  ["cls", "pooler", "last-avg", "first-last-avg"]

/-- Embedding of `assert args.pooler in [...]` (train.py line 102): ok when the
flag is in the enumerated set, an AssertionError otherwise. -/
def mainPoolerAssert (pooler : String) : Except String Unit :=
  if pooler ∈ poolerChoices then Except.ok () else Except.error "AssertionError"

/-! ### Per-batch pipeline order (`train`, lines 29-47) -/

/-- Pipeline phases executed by the body of the training loop. -/
inductive PhaseStep
  | forward
  | lossCompute
  | zeroGrad
  | backward
  | optimStep
  | evalStep
  | bestTrack
deriving DecidableEq, Repr

/-- Sequence of phases executed by the training-loop body for a batch with index
`batch_idx`: forward pass (line 34), loss (line 35), `optimizer.zero_grad()`
(line 36), `loss.backward()` (line 37), `optimizer.step()` (line 38), then,
under the guard `batch_idx % 1 == 0` (line 40), evaluation (line 42) and
best-correlation tracking (lines 44-47). -/
def trainBatchTrace (batch_idx : Nat) : List PhaseStep :=
  [PhaseStep.forward, PhaseStep.lossCompute, PhaseStep.zeroGrad,
   PhaseStep.backward, PhaseStep.optimStep] ++
    (if batch_idx % 1 == 0 then [PhaseStep.evalStep, PhaseStep.bestTrack] else [])

/-! ### CLI arguments (`__main__`, lines 110-127, and `main`, line 78) -/

/-- CLI arguments of the script (train.py lines 112-123). -/
structure Args where
  device : String
  save_path : String
  un_supervise : Bool
  lr : ℚ
  dropout : ℚ
  batch_size : ℚ
  max_length : Nat
  data_path : String
  pretrain_model_path : String
  pooler : String
deriving DecidableEq, Repr

/-- Device chosen by `main` (train.py line 78): `cuda:0` when CUDA is
available, `cpu` otherwise. The incoming `args.device` is not consulted. -/
def resolveDevice (cudaAvailable : Bool) : String :=
  if cudaAvailable then "cuda:0" else "cpu"

/-- Effect of `main` on the argument record (train.py line 78): the `device`
field is unconditionally overwritten from CUDA availability; all other fields
pass through unchanged. -/
def mainArgs (a : Args) (cudaAvailable : Bool) : Args :=
  { a with device := resolveDevice cudaAvailable }

/-- Python truthiness of a string, as computed by `bool(s)`: true exactly when
the string is non-empty. `argparse` with `type=bool` applies this to the raw
command-line token (train.py line 114). -/
def pyBool (s : String) : Bool :=
  s.length != 0

/-- Parsed value of the `--un_supervise` flag: `none` models omitting the flag
(the declared `default=False`), `some s` models passing the token `s`, which
argparse converts with `bool(s)` because the flag is declared `type=bool`
(train.py line 114). -/
def parseUnSupervise (arg : Option String) : Bool :=
  match arg with
  | none => false
  | some s => pyBool s

/-! ### Side effects of the training loop (`train`, lines 40-47) -/

/-- Observable output side effects the training-loop body can emit. -/
inductive Effect
  | logLoss (loss : ℚ)
  | logHigherCorr (corrcoef : ℚ) (batch_idx : Nat)
  | saveModel (path : String)
deriving DecidableEq, Repr

/-- Whether an effect is a log message. -/
def Effect.isLog : Effect → Bool
  | .logLoss _ => true
  | .logHigherCorr _ _ => true
  | .saveModel _ => false

/-- Side effects emitted by one iteration of the training loop after the
optimizer step (train.py lines 40-47): under the guard `batch_idx % 1 == 0`,
the loss is logged, and when a new best correlation is observed another log
line is emitted. The `torch.save(model.state_dict(), save_path)` call on
line 46 is commented out in the source, so no save effect is produced. -/
def trainStepEffects (batch_idx : Nat) (loss corrcoef best : ℚ) : List Effect :=
  if batch_idx % 1 == 0 then
    Effect.logLoss loss ::
      (if best < corrcoef then [Effect.logHigherCorr corrcoef batch_idx] else [])
  else []

/-- Effects of the rest of a `train` run, given the list of (loss, corrcoef)
pairs the remaining batches will produce, the current batch index, and the
current `best` value, threaded exactly as the loop threads them. -/
def trainEffects : List (ℚ × ℚ) → Nat → ℚ → List Effect
  | [], _, _ => []
  | (loss, corrcoef) :: rest, batch_idx, best =>
      trainStepEffects batch_idx loss corrcoef best ++
        trainEffects rest (batch_idx + 1) (bestUpdate best corrcoef)

/-- Effects of a whole `train` run: batch indices start at 1
(`enumerate(..., start=1)`, line 22) and `best` starts at 0 (line 21). -/
def trainRunEffects (observations : List (ℚ × ℚ)) : List Effect :=
  trainEffects observations 1 0

/-! ### Tensor reshaping (`train`, lines 29-32) -/

/-- Splitting a flat list into consecutive chunks of `k` elements each: the
row grouping performed by a row-major `view`. -/
def chunkList {α : Type} (k : Nat) (l : List α) : List (List α) :=
  if h : l.length = 0 ∨ k = 0 then []
  else l.take k :: chunkList k (l.drop k)
termination_by l.length
decreasing_by
  simp only [List.length_drop]
  push_neg at h
  omega

/-- `t.view(n, -1)` on a contiguous rank-3 tensor (train.py lines 30-32):
reinterpret the row-major data as `n` rows of `numel / n` elements each. -/
def view2 (t : Tensor3) (n : Nat) : Tensor2 :=
  chunkList ((t.map List.flatten).flatten.length / n) (t.map List.flatten).flatten

/-! ### Training batches and their consumption (`train`, lines 22-32) -/

/-- Tokenizer output dict with the three tensor fields used by the script. -/
structure EncDict where
  input_ids : Tensor3
  attention_mask : Tensor3
  token_type_ids : Tensor3
deriving DecidableEq, Repr

/-- Python dict lookup `enc.get(key)`: the three tensor keys are present, any
other key yields None. -/
def EncDict.lookup (e : EncDict) (key : String) : Option Tensor3 :=
  if key = "input_ids" then some e.input_ids
  else if key = "attention_mask" then some e.attention_mask
  else if key = "token_type_ids" then some e.token_type_ids
  else none

/-- A collated batch yielded by the training dataloader.

`unsup`: unsupervised `TrainDataset` batches are a single tokenizer dict whose
tensors have shape [batch, 2, seq_len] (train.py docstring, line 25).

`sup`: Modelled from the spec: supervised batches come from `TestDataset`,
defined in `dataloader.py`, which is not part of the source tree. Per the
spec's data model (raw text fields plus a gold similarity label) and the
docstring at train.py line 24 — tokenized first sentence, tokenized second
sentence, integer label — each supervised item is a triple, so the collated
batch is a (source, target, label) triple rather than a dict. -/
inductive TrainBatch
  | unsup (enc : EncDict)
  | sup (source target : EncDict) (label : List Int)
deriving DecidableEq, Repr

/-- Python attribute access `source.get(key)` as performed by the training loop
(train.py lines 29-32): a dict batch supports `.get`; a collated triple is a
list, which has no `.get` attribute, so the access raises AttributeError. -/
def TrainBatch.pyGet (b : TrainBatch) (key : String) : Except String (Option Tensor3) :=
  match b with
  | .unsup enc => Except.ok (enc.lookup key)
  | .sup _ _ _ => Except.error "AttributeError: list object has no attribute get"

/-- Batch consumption performed by each iteration of the training loop
(train.py lines 29-32): read `input_ids` via `.get`, take its first dimension
as `real_batch_num`, then `.view(real_batch_num * 2, -1)` each of the three
tensors read via `.get`. Any failed attribute access propagates. -/
def trainStep (b : TrainBatch) : Except String (Tensor2 × Tensor2 × Tensor2) := do
  let ii? ← b.pyGet "input_ids"
  match ii? with
  | none => Except.error "AttributeError: NoneType object has no attribute shape"
  | some ii =>
    let real_batch_num := ii.length
    let am? ← b.pyGet "attention_mask"
    let tt? ← b.pyGet "token_type_ids"
    match am?, tt? with
    | some am, some tt =>
        Except.ok
          (view2 ii (real_batch_num * 2), view2 am (real_batch_num * 2),
            view2 tt (real_batch_num * 2))
    | _, _ => Except.error "AttributeError: NoneType object has no attribute view"

/-- Shape check: `t` is a rank-3 tensor of shape [B, V, L]. -/
def shape3 (t : Tensor3) (B V L : Nat) : Bool :=
  t.length == B &&
    t.all (fun r => r.length == V && r.all (fun row => row.length == L))

/-- Concrete sample tensor of shape [2, 2, 3] with distinct entries. -/
def sampleTensor3 : Tensor3 :=
  [[[0, 1, 2], [3, 4, 5]], [[6, 7, 8], [9, 10, 11]]]

/-- Concrete sample encoding dict used to exercise the training step. -/
def sampleEnc : EncDict :=
  { input_ids := sampleTensor3
    attention_mask := sampleTensor3
    token_type_ids := sampleTensor3 }

/-! ### Evaluation (`evaluation`, lines 50-74) -/

/-- Dot product of two embedding vectors. -/
def dotProd (x y : List ℚ) : ℚ :=
  (List.zipWith (fun a b => a * b) x y).sum

/-- Rowwise `F.cosine_similarity(a, b, dim=-1)` on two [batch, d] matrices
(train.py line 70): for each row pair, the dot product divided by the
eps-clamped product of Euclidean norms. The Euclidean norm is irrational in
general, so the framework norm is passed in as `norm2`. -/
def cosineSimRows (norm2 : List ℚ → ℚ) (eps : ℚ) (a b : List (List ℚ)) : List ℚ :=
  List.zipWith (fun x y => dotProd x y / max (norm2 x * norm2 y) eps) a b

/-- One collated batch of the dev dataloader (train.py line 58): squeezed
source encodings, squeezed target encodings, and the gold labels. -/
structure EvalBatch (Enc : Type) where
  source : Enc
  target : Enc
  label : List ℚ

/-- The accumulation loop of `evaluation` (train.py lines 57-72): starting
from an empty `sim_tensor` and an empty `label_array`, each batch appends its
rowwise cosine similarities to the first component and its gold labels to the
second, both by concatenation. -/
def evalLoop {Enc : Type} (model : Enc → List (List ℚ)) (norm2 : List ℚ → ℚ)
    (eps : ℚ) (batches : List (EvalBatch Enc)) : List ℚ × List ℚ :=
  batches.foldl
    (fun acc b =>
      (acc.1 ++ cosineSimRows norm2 eps (model b.source) (model b.target),
        acc.2 ++ b.label))
    ([], [])

/-- Embedding of `evaluation` (train.py lines 50-74), parameterized over the
encoder forward pass `model`, the framework norm `norm2` with clamp `eps`, and
the framework Spearman correlation `spearman`: after the accumulation loop, a
single `spearmanr(label_array, sim_tensor)` call produces the result
(line 74). -/
def evaluation {Enc : Type} (model : Enc → List (List ℚ)) (norm2 : List ℚ → ℚ)
    (eps : ℚ) (spearman : List ℚ → List ℚ → ℚ) (batches : List (EvalBatch Enc)) : ℚ :=
  spearman (evalLoop model norm2 eps batches).2 (evalLoop model norm2 eps batches).1

/-! ### Error propagation through `main` (lines 77-107) -/

/-- Embedding of the body of `main` (train.py lines 77-107) as the sequence of
fallible operations it performs, in source order and with no exception
handler: load the test data (line 86), load the tokenizer (line 87), load the
training data (lines 88-95), check the pooling assertion (line 102), build the
model (lines 103-104), and run `train` (line 107). `main` merely sequences
these operations. -/
def mainPipeline {TD Tok TrD M : Type}
    (loadTestData : Except String TD)
    (loadTokenizer : Except String Tok)
    (loadTrainData : Except String TrD)
    (pooler : String)
    (buildModel : Except String M)
    (runTrain : M → Except String Unit) : Except String Unit := do
  let _ ← loadTestData
  let _ ← loadTokenizer
  let _ ← loadTrainData
  let _ ← mainPoolerAssert pooler
  let m ← buildModel
  runTrain m

end SimCSE

namespace SimCSE

/-- C2: `best` starts at 0 and is bumped to `corrcoef` exactly when
`best < corrcoef`, so after any sequence of observed correlation coefficients it
equals the maximum of 0 and all of them, and appending one more observation
never decreases it. -/
theorem trainBest_is_running_max (cs : List ℚ) :
    trainBest cs = cs.foldl max 0 ∧ ∀ c : ℚ, trainBest cs ≤ trainBest (cs ++ [c]) := by
  have hupd : ∀ b c : ℚ, bestUpdate b c = max b c := by
    intro b c
    unfold bestUpdate
    rcases lt_trichotomy b c with h | h | h
    · simp [h, le_of_lt h, max_eq_right (le_of_lt h)]
    · simp [h]
    · simp [not_lt_of_gt h, max_eq_left (le_of_lt h)]
  have hfold : trainBest cs = cs.foldl max 0 := by
    unfold trainBest
    have : bestUpdate = fun b c => max b c := by
      funext b c
      exact hupd b c
    rw [this]
  refine ⟨hfold, ?_⟩
  intro c
  unfold trainBest
  rw [List.foldl_append]
  simp only [List.foldl_cons, List.foldl_nil]
  rw [hupd]
  exact le_max_left _ _

/-- C5: the assertion in `main` fires exactly on pooling flags outside the
enumerated set, so under the precondition that the flag is one of `cls`,
`pooler`, `last-avg`, `first-last-avg` it never fires. -/
theorem mainPoolerAssert_iff (pooler : String) :
    mainPoolerAssert pooler = Except.error "AssertionError" ↔ pooler ∉ poolerChoices := by
  unfold mainPoolerAssert
  by_cases h : pooler ∈ poolerChoices
  · simp [h]
  · simp [h]

/-- C7: for every batch index the training-loop body runs forward pass, loss
computation, gradient zeroing, backpropagation, optimizer step, evaluation and
best tracking in that order; since the evaluation guard is `batch_idx % 1 == 0`,
the evaluation phase runs after every single batch. -/
theorem trainBatchTrace_every_batch (batch_idx : Nat) :
    trainBatchTrace batch_idx =
      [PhaseStep.forward, PhaseStep.lossCompute, PhaseStep.zeroGrad,
       PhaseStep.backward, PhaseStep.optimStep, PhaseStep.evalStep, PhaseStep.bestTrack] := by
  unfold trainBatchTrace
  simp [Nat.mod_one]

/-- C9: the `--device` CLI flag has no effect: two argument records that differ
only in the `device` field produce identical configurations after `main`
overwrites the device from CUDA availability. -/
theorem device_flag_ignored (a : Args) (d₁ d₂ : String) (cudaAvailable : Bool) :
    mainArgs { a with device := d₁ } cudaAvailable
      = mainArgs { a with device := d₂ } cudaAvailable := by
  unfold mainArgs
  rfl

/-- C10: with `type=bool`, any non-empty token passed to `--un_supervise`
(including the token `False`) parses to true and selects unsupervised mode,
while omitting the flag or passing an empty token yields false. -/
theorem unSupervise_flag_truthiness (s : String) :
    (s ≠ "" → parseUnSupervise (some s) = true) ∧
    parseUnSupervise none = false ∧
    parseUnSupervise (some "") = false := by
  refine ⟨?_, rfl, by decide⟩
  intro hs
  unfold parseUnSupervise pyBool
  simp only [bne_iff_ne, ne_eq, decide_eq_true_eq]
  intro hlen
  exact hs (String.ext (by simpa [String.length] using List.length_eq_zero.mp hlen))

/-- C10 witness: the concrete token `False` is non-empty and parses to true. -/
theorem unSupervise_flag_truthiness_witness :
    parseUnSupervise (some "False") = true :=
  (unSupervise_flag_truthiness "False").1 (by decide)

/-- Helper: every effect emitted by one loop iteration is a log message. -/
theorem trainStepEffects_all_log (batch_idx : Nat) (loss corrcoef best : ℚ) :
    (trainStepEffects batch_idx loss corrcoef best).all Effect.isLog = true := by
  unfold trainStepEffects
  split
  · split <;> rfl
  · rfl

/-- Helper: every effect emitted by the tail of a training run is a log
message, for any starting batch index and best value. -/
theorem trainEffects_all_log (observations : List (ℚ × ℚ)) :
    ∀ (batch_idx : Nat) (best : ℚ),
      (trainEffects observations batch_idx best).all Effect.isLog = true := by
  induction observations with
  | nil => intro _ _; rfl
  | cons p rest ih =>
    intro batch_idx best
    obtain ⟨loss, corrcoef⟩ := p
    simp only [trainEffects, List.all_append, Bool.and_eq_true]
    exact ⟨trainStepEffects_all_log batch_idx loss corrcoef best, ih _ _⟩

/-- C3: a run of `train` emits only log messages; in particular no model
checkpoint is ever saved to any path, even when a new best correlation is
observed, because the `torch.save` call is commented out. -/
theorem train_writes_no_checkpoint (observations : List (ℚ × ℚ)) :
    (trainRunEffects observations).all Effect.isLog = true ∧
    ∀ path : String, Effect.saveModel path ∉ trainRunEffects observations := by
  have hall : (trainRunEffects observations).all Effect.isLog = true :=
    trainEffects_all_log observations 1 0
  refine ⟨hall, ?_⟩
  intro path hmem
  have hlog := List.all_eq_true.mp hall _ hmem
  simp [Effect.isLog] at hlog

/-- C1: in supervised mode every collated training batch is a
(source, target, label) triple, and the training loop's very first attribute
access `source.get("input_ids")` raises AttributeError, so no supervised
training step completes; the same loop succeeds on every unsupervised dict
batch. -/
theorem supervised_batch_crashes (source target : EncDict) (label : List Int)
    (enc : EncDict) :
    trainStep (TrainBatch.sup source target label)
        = Except.error "AttributeError: list object has no attribute get" ∧
    ∃ out, trainStep (TrainBatch.unsup enc) = Except.ok out := by
  exact ⟨rfl, ⟨_, rfl⟩⟩

/-- C8: `main` sequences its fallible operations with no exception handler:
whichever operation fails first — loading the test data, the tokenizer, the
training data, building the model, or running `train` — its error is the
result of `main`, unchanged. -/
theorem main_propagates_errors {TD Tok TrD M : Type}
    (e : String) (td : TD) (tok : Tok) (trd : TrD) (m : M)
    (ltk : Except String Tok) (ltd : Except String TrD)
    (bm : Except String M) (rt : M → Except String Unit)
    (pooler : String) (hp : pooler ∈ poolerChoices) :
    mainPipeline (Except.error e : Except String TD) ltk ltd pooler bm rt
        = Except.error e ∧
    mainPipeline (Except.ok td) (Except.error e : Except String Tok) ltd pooler bm rt
        = Except.error e ∧
    mainPipeline (Except.ok td) (Except.ok tok) (Except.error e : Except String TrD)
        pooler bm rt = Except.error e ∧
    mainPipeline (Except.ok td) (Except.ok tok) (Except.ok trd) pooler
        (Except.error e : Except String M) rt = Except.error e ∧
    mainPipeline (Except.ok td) (Except.ok tok) (Except.ok trd) pooler
        (Except.ok m) (fun _ => Except.error e) = Except.error e := by
  have hassert : mainPoolerAssert pooler = Except.ok () := by
    unfold mainPoolerAssert
    simp [hp]
  refine ⟨rfl, rfl, rfl, ?_, ?_⟩ <;>
    simp only [mainPipeline, hassert] <;> rfl

/-- C8 witness: with a concrete valid pooling flag, a missing data file error
raised by the first load propagates out of `main` unchanged. -/
theorem main_propagates_errors_witness :
    "cls" ∈ poolerChoices ∧
    mainPipeline (Except.error "FileNotFoundError" : Except String Unit)
        (Except.ok () : Except String Unit) (Except.ok () : Except String Unit)
        "cls" (Except.ok () : Except String Unit) (fun _ => Except.ok ())
      = Except.error "FileNotFoundError" :=
  ⟨by decide,
    (main_propagates_errors "FileNotFoundError" () () () ()
      (Except.ok ()) (Except.ok ()) (Except.ok ()) (fun _ => Except.ok ())
      "cls" (by decide)).1⟩

/-- Helper: the flattening of a list of uniform-length rows has length
rows times row length. -/
theorem flatten_length_uniform {α : Type} (u : List (List α)) (L : Nat)
    (h : ∀ r ∈ u, r.length = L) : u.flatten.length = u.length * L := by
  induction u with
  | nil => simp
  | cons r us ih =>
    simp only [List.flatten_cons, List.length_append, List.length_cons]
    rw [h r (List.mem_cons_self r us),
      ih (fun x hx => h x (List.mem_cons_of_mem _ hx))]
    ring

/-- Helper: chunking the flattening of uniform-length rows by the row length
recovers the rows. -/
theorem chunkList_flatten_uniform {α : Type} (u : List (List α)) (L : Nat)
    (hL : 0 < L) (h : ∀ r ∈ u, r.length = L) : chunkList L u.flatten = u := by
  induction u with
  | nil =>
    rw [chunkList]
    simp
  | cons r us ih =>
    have hr : r.length = L := h r (List.mem_cons_self r us)
    rw [chunkList]
    have hne : ¬((r :: us).flatten.length = 0 ∨ L = 0) := by
      simp only [List.flatten_cons, List.length_append]
      omega
    rw [dif_neg hne]
    simp only [List.flatten_cons]
    rw [List.take_left' hr, List.drop_left' hr,
      ih (fun x hx => h x (List.mem_cons_of_mem _ hx))]

/-- Helper: indexing the flattening of uniform-length rows: position
`V * b + v` of the flat list is position `v` of row `b`. -/
theorem flatten_getD_uniform {α : Type} (V : Nat) (d : α) :
    ∀ u : List (List α), (∀ r ∈ u, r.length = V) →
      ∀ b v : Nat, b < u.length → v < V →
        u.flatten.getD (V * b + v) d = ((u.getD b []).getD v d) := by
  intro u
  induction u with
  | nil =>
    intro _ b v hb _
    simp at hb
  | cons r us ih =>
    intro h b v hb hv
    have hr : r.length = V := h r (List.mem_cons_self r us)
    cases b with
    | zero =>
      simp only [Nat.mul_zero, Nat.zero_add, List.flatten_cons, List.getD_cons_zero]
      rw [List.getD_append]
      omega
    | succ b =>
      simp only [List.flatten_cons, List.getD_cons_succ, Nat.mul_succ]
      rw [List.getD_append_right]
      · have harith : V * b + V + v - r.length = V * b + v := by omega
        rw [harith]
        exact ih (fun x hx => h x (List.mem_cons_of_mem _ hx)) b v
          (by simpa using Nat.lt_of_succ_lt_succ hb) hv
      · omega

/-- C6: on a training tensor of shape [B, 2, L], the `view(B * 2, -1)`
reshape sends element [b, v, s] to element [2 * b + v, s]: the two augmented
views of example `b` become the adjacent rows `2 * b` and `2 * b + 1`. -/
theorem view_interleaves (t : Tensor3) (B L b v s : Nat)
    (hshape : shape3 t B 2 L = true)
    (hb : b < B) (hv : v < 2) (hs : s < L) :
    ((view2 t (B * 2)).getD (2 * b + v) []).getD s 0
      = ((t.getD b []).getD v []).getD s 0 := by
  have hL : 0 < L := by omega
  have ht := hshape
  simp only [shape3, Bool.and_eq_true, beq_iff_eq, List.all_eq_true] at ht
  obtain ⟨htB, hrows⟩ := ht
  have huni : ∀ row ∈ t.flatten, row.length = L := by
    intro row hrow
    rw [List.mem_flatten] at hrow
    obtain ⟨r, hrt, hrowr⟩ := hrow
    exact ((hrows r hrt).2) row hrowr
  have hlen2 : t.flatten.length = B * 2 := by
    rw [flatten_length_uniform t 2 (fun r hr => (hrows r hr).1), htB]
  have hfl : (t.flatten).flatten.length = B * 2 * L := by
    rw [flatten_length_uniform t.flatten L huni, hlen2]
  have hview : view2 t (B * 2) = t.flatten := by
    unfold view2
    rw [← List.flatten_flatten, hfl,
      Nat.mul_div_cancel_left L (show 0 < B * 2 by omega)]
    exact chunkList_flatten_uniform t.flatten L hL huni
  rw [hview,
    flatten_getD_uniform 2 ([] : List Int) t (fun r hr => (hrows r hr).1) b v
      (by omega) hv]

/-- C6 witness: concrete check of the interleaving on a [2, 2, 3] tensor at
b = 1, v = 1, s = 2. -/
theorem view_interleaves_witness :
    shape3 sampleTensor3 2 2 3 = true ∧
    ((view2 sampleTensor3 (2 * 2)).getD (2 * 1 + 1) []).getD 2 0
      = ((sampleTensor3.getD 1 []).getD 1 []).getD 2 0 :=
  ⟨by decide,
    view_interleaves sampleTensor3 2 3 1 1 2 (by decide) (by decide) (by decide)
      (by decide)⟩

/-- Helper: the pairwise-append fold of `evalLoop` concatenates the per-batch
contributions in order. -/
theorem foldl_append_pair {α : Type} (f g : α → List ℚ) :
    ∀ (l : List α) (xs ys : List ℚ),
      l.foldl (fun acc b => (acc.1 ++ f b, acc.2 ++ g b)) (xs, ys)
        = (xs ++ (l.map f).flatten, ys ++ (l.map g).flatten) := by
  intro l
  induction l with
  | nil =>
    intro xs ys
    simp
  | cons b bs ih =>
    intro xs ys
    simp only [List.foldl_cons, List.map_cons, List.flatten_cons]
    rw [ih]
    simp [List.append_assoc]

/-- C4: `evaluation` returns one Spearman correlation computed over the
concatenation of all batches: the gold labels of every batch and the rowwise
cosine similarities of every batch are each concatenated across the whole
dataloader, and a single correlation of the two full arrays is returned, with
no per-batch averaging. -/
theorem evaluation_single_spearman_over_concat {Enc : Type}
    (model : Enc → List (List ℚ)) (norm2 : List ℚ → ℚ) (eps : ℚ)
    (spearman : List ℚ → List ℚ → ℚ) (batches : List (EvalBatch Enc)) :
    evaluation model norm2 eps spearman batches
      = spearman
          ((batches.map (fun b => b.label)).flatten)
          ((batches.map
              (fun b => cosineSimRows norm2 eps (model b.source) (model b.target))).flatten) := by
  unfold evaluation evalLoop
  rw [foldl_append_pair
    (fun b => cosineSimRows norm2 eps (model b.source) (model b.target))
    (fun b => b.label) batches [] []]
  simp

end SimCSE
